import Mathlib

/-!
Verification development for a 2D staggered-grid (MAC) incompressible fluid
solver written in Rust (`navier_stokes_rust`).  Machine `f64` arithmetic is
embedded as exact rational arithmetic (`ℚ`); Rust's saturating `as usize`
cast of a floored float is embedded as `Int.toNat` of `Int.floor` (negative
values saturate to `0`).  The flat `Vec<f64>` buffers are embedded as total
functions `ℕ → ℚ`; every loop that writes a buffer is embedded as a left
fold of pointwise updates over the exact index list the source iterates.
-/

/-- The grid state: dimensions `nx`, `ny`, cell size `dx`, and the three
flat fields (pressure `p`, horizontal velocity `u`, vertical velocity `v`),
mirroring `struct FluidGrid` in `main.rs`. -/
structure FluidGrid where
  nx : ℕ
  ny : ℕ
  dx : ℚ
  p : ℕ → ℚ
  u : ℕ → ℚ
  v : ℕ → ℚ

/-- `for j in j0..j0+nj { for i in i0..i0+ni { ... (i, j) ... } }` —
the (column, row) pairs visited by a rectangular double loop, in source
order (row-major, rows outermost). -/
def idxRect (i0 ni j0 nj : ℕ) : List (ℕ × ℕ) :=
  (List.range' j0 nj).flatMap (fun j => (List.range' i0 ni).map (fun i => (i, j)))

/-- Fold of pointwise buffer writes: for each `(i, j)` in `idxs` (in order),
write `val i j` at flat offset `F i j`, starting from buffer `f`.  `val`
reads only captured pre-loop state, matching the source loops, whose reads
never go through the buffer being written. -/
def writeCells (F : ℕ → ℕ → ℕ) (val : ℕ → ℕ → ℚ) (idxs : List (ℕ × ℕ))
    (f : ℕ → ℚ) : ℕ → ℚ :=
  idxs.foldl (fun acc ij => Function.update acc (F ij.1 ij.2) (val ij.1 ij.2)) f

namespace FluidGrid

/-- `FluidGrid::new`: zero-initialised grid of the requested dimensions.
The source performs no validation of `nx`, `ny`, `dx`. -/
def new (nx ny : ℕ) (dx : ℚ) : FluidGrid :=
  ⟨nx, ny, dx, fun _ => 0, fun _ => 0, fun _ => 0⟩

/-- `FluidGrid::u_idx`: flat offset of u-face (column `i`, row `j`). -/
def u_idx (g : FluidGrid) (i j : ℕ) : ℕ :=
  j * (g.nx + 1) + i

/-- `FluidGrid::v_idx`: flat offset of v-face (column `i`, row `j`). -/
def v_idx (g : FluidGrid) (i j : ℕ) : ℕ :=
  j * g.nx + i

/-- `FluidGrid::p_idx`: flat offset of pressure cell (column `i`, row `j`). -/
def p_idx (g : FluidGrid) (i j : ℕ) : ℕ :=
  j * g.nx + i

/-- `FluidGrid::get_velocity`: clamp the query point into the domain, then
bilinearly interpolate each component from its four surrounding face
values, with each neighbour index clamped exactly as the source writes it
(`.min(self.nx-1)` / `.min(self.ny-1)`). -/
def get_velocity (g : FluidGrid) (x0 y0 : ℚ) : ℚ × ℚ :=
  let x := min (max x0 0) ((g.nx : ℚ) * g.dx)
  let y := min (max y0 0) ((g.ny : ℚ) * g.dx)
  let u_i : ℕ := (⌊x / g.dx⌋).toNat
  let u_j : ℕ := (⌊y / g.dx - 1/2⌋).toNat
  let u_tx : ℚ := x / g.dx - (u_i : ℚ)
  let u_ty : ℚ := (y / g.dx - 1/2) - (u_j : ℚ)
  let u00 := g.u (g.u_idx (min u_i (g.nx - 1)) (min u_j (g.ny - 1)))
  let u10 := g.u (g.u_idx (min (u_i + 1) (g.nx - 1)) (min u_j (g.ny - 1)))
  let u01 := g.u (g.u_idx (min u_i (g.nx - 1)) (min (u_j + 1) (g.ny - 1)))
  let u11 := g.u (g.u_idx (min (u_i + 1) (g.nx - 1)) (min (u_j + 1) (g.ny - 1)))
  let u_interp := u00 * (1 - u_tx) * (1 - u_ty) + u10 * u_tx * (1 - u_ty)
      + u01 * (1 - u_tx) * u_ty + u11 * u_tx * u_ty
  let v_i : ℕ := (⌊x / g.dx - 1/2⌋).toNat
  let v_j : ℕ := (⌊y / g.dx⌋).toNat
  let v_tx : ℚ := (x / g.dx - 1/2) - (v_i : ℚ)
  let v_ty : ℚ := y / g.dx - (v_j : ℚ)
  let v00 := g.v (g.v_idx (min v_i (g.nx - 1)) (min v_j (g.ny - 1)))
  let v10 := g.v (g.v_idx (min (v_i + 1) (g.nx - 1)) (min v_j (g.ny - 1)))
  let v01 := g.v (g.v_idx (min v_i (g.nx - 1)) (min (v_j + 1) (g.ny - 1)))
  let v11 := g.v (g.v_idx (min (v_i + 1) (g.nx - 1)) (min (v_j + 1) (g.ny - 1)))
  let v_interp := v00 * (1 - v_tx) * (1 - v_ty) + v10 * v_tx * (1 - v_ty)
      + v01 * (1 - v_tx) * v_ty + v11 * v_tx * v_ty
  (u_interp, v_interp)

/-- The value the advection sweep writes at u-face `(i, j)`: velocity at the
face position, backward trace, resample — all reads via `get_velocity` on
the pre-step grid `g`. -/
def advUval (g : FluidGrid) (dt : ℚ) (i j : ℕ) : ℚ :=
  let x := (i : ℚ) * g.dx
  let y := ((j : ℚ) + 1/2) * g.dx
  let uv := g.get_velocity x y
  (g.get_velocity (x - dt * uv.1) (y - dt * uv.2)).1

/-- The value the advection sweep writes at v-face `(i, j)`, symmetric to
`advUval`. -/
def advVval (g : FluidGrid) (dt : ℚ) (i j : ℕ) : ℚ :=
  let x := ((i : ℚ) + 1/2) * g.dx
  let y := (j : ℚ) * g.dx
  let uv := g.get_velocity x y
  (g.get_velocity (x - dt * uv.1) (y - dt * uv.2)).2

/-- `FluidGrid::advect`: semi-Lagrangian advection into fresh buffers
(`u_new`, `v_new` clones of `u`, `v`), u-loop `j in 0..ny, i in 1..nx`,
v-loop `j in 1..ny, i in 0..nx`; the buffers replace the fields after both
sweeps. -/
def advect (g : FluidGrid) (dt : ℚ) : FluidGrid :=
  ⟨g.nx, g.ny, g.dx, g.p,
    writeCells g.u_idx (g.advUval dt) (idxRect 1 (g.nx - 1) 0 g.ny) g.u,
    writeCells g.v_idx (g.advVval dt) (idxRect 0 g.nx 1 (g.ny - 1)) g.v⟩

/-- Divergence buffer of `solve_pressure` part 1: starts as `vec![0.0]` and
every cell `(i, j)` with `i in 0..nx, j in 0..ny` receives
`(u_right - u_left + v_top - v_bot) / dx`. -/
def divergence (g : FluidGrid) : ℕ → ℚ :=
  writeCells g.p_idx
    (fun i j => (g.u (g.u_idx (i + 1) j) - g.u (g.u_idx i j)
      + g.v (g.v_idx i (j + 1)) - g.v (g.v_idx i j)) / g.dx)
    (idxRect 0 g.nx 0 g.ny) (fun _ => 0)

/-- The interior writes of one `solve_pressure` part 2 iteration: each
interior cell (`j in 1..ny-1, i in 1..nx-1`) of the buffer `pNew` receives
`(p_right + p_left + p_top + p_bot - d*dx*dx) / 4` with all four
neighbours read from `pOld` (the field `self.p`). -/
def sweepWrite (g : FluidGrid) (div : ℕ → ℚ) (pOld pNew : ℕ → ℚ) : ℕ → ℚ :=
  writeCells g.p_idx
    (fun i j => (pOld (g.p_idx (i + 1) j) + pOld (g.p_idx (i - 1) j)
      + pOld (g.p_idx i (j + 1)) + pOld (g.p_idx i (j - 1))
      - div (g.p_idx i j) * g.dx * g.dx) / 4)
    (idxRect 1 (g.nx - 1 - 1) 1 (g.ny - 1 - 1)) pNew

/-- One iteration of the `solve_pressure` part 2 loop body, on the pair
`(self.p, p_new)`: write the interior of `p_new` from `self.p`, then
`self.p = p_new.clone()`. -/
def sweepOnce (g : FluidGrid) (div : ℕ → ℚ) (s : (ℕ → ℚ) × (ℕ → ℚ)) :
    (ℕ → ℚ) × (ℕ → ℚ) :=
  (g.sweepWrite div s.1 s.2, g.sweepWrite div s.1 s.2)

/-- `FluidGrid::solve_pressure`: compute the divergence, then run the
two-buffer relaxation loop exactly `50` times (`num_iterations = 50`),
starting from `(self.p, p_new = self.p.clone())`; only `p` is written back.
The `dt` argument is accepted but never used by the source body. -/
def solve_pressure (g : FluidGrid) (dt : ℚ) : FluidGrid :=
  ⟨g.nx, g.ny, g.dx, ((g.sweepOnce g.divergence)^[50] (g.p, g.p)).1, g.u, g.v⟩

/-- `FluidGrid::project`: subtract the scaled pressure gradient
(`scale = dt / (rho * dx)`, `rho = 1`) from the interior velocity faces,
u-loop `j in 1..ny-1, i in 1..nx`, v-loop `j in 1..ny, i in 1..nx-1`. -/
def project (g : FluidGrid) (dt : ℚ) : FluidGrid :=
  ⟨g.nx, g.ny, g.dx, g.p,
    writeCells g.u_idx
      (fun i j => g.u (g.u_idx i j)
        - dt / (1 * g.dx) * (g.p (g.p_idx i j) - g.p (g.p_idx (i - 1) j)))
      (idxRect 1 (g.nx - 1) 1 (g.ny - 1 - 1)) g.u,
    writeCells g.v_idx
      (fun i j => g.v (g.v_idx i j)
        - dt / (1 * g.dx) * (g.p (g.p_idx i j) - g.p (g.p_idx i (j - 1))))
      (idxRect 1 (g.nx - 1 - 1) 1 (g.ny - 1)) g.v⟩

/-- `FluidGrid::set_boundaries`: zero the u-velocity at face columns `0`
and `nx` for every row, and the v-velocity at face rows `0` and `ny` for
every column. -/
def set_boundaries (g : FluidGrid) : FluidGrid :=
  ⟨g.nx, g.ny, g.dx, g.p,
    writeCells g.u_idx (fun _ _ => 0)
      ((List.range g.ny).flatMap (fun j => [(0, j), (g.nx, j)])) g.u,
    writeCells g.v_idx (fun _ _ => 0)
      ((List.range g.nx).flatMap (fun i => [(i, 0), (i, g.ny)])) g.v⟩

/-- `FluidGrid::run_step`: the fixed four-phase pipeline. -/
def run_step (g : FluidGrid) (dt : ℚ) : FluidGrid :=
  (((g.advect dt).solve_pressure dt).project dt).set_boundaries

end FluidGrid

/-- The no-flow boundary condition of the spec: u is zero on face columns
`0` and `nx` for every row, v is zero on face rows `0` and `ny` for every
column. -/
def noFlowBoundary (g : FluidGrid) : Prop :=
  (∀ j, j < g.ny → g.u (g.u_idx 0 j) = 0 ∧ g.u (g.u_idx g.nx j) = 0) ∧
  (∀ i, i < g.nx → g.v (g.v_idx i 0) = 0 ∧ g.v (g.v_idx i g.ny) = 0)

/-- One pressure-relaxation sweep stated from the spec's words (§4.4 step
2): every interior cell — column and row strictly inside
`[1, nx-2] x [1, ny-2]` — becomes
`(p_right + p_left + p_top + p_bot - div*dx*dx) / 4`, every neighbour read
from the previous full sweep's field `p` (synchronous Jacobi), and every
border cell keeps its value. -/
def jacobiSweepSpec (nx ny : ℕ) (dx : ℚ) (div : ℕ → ℚ) (p : ℕ → ℚ) : ℕ → ℚ :=
  fun k =>
    let i := k % nx
    let j := k / nx
    if 1 ≤ i ∧ i ≤ nx - 2 ∧ 1 ≤ j ∧ j ≤ ny - 2 then
      (p (j * nx + (i + 1)) + p (j * nx + (i - 1))
        + p ((j + 1) * nx + i) + p ((j - 1) * nx + i)
        - div (j * nx + i) * dx * dx) / 4
    else p k

/-- A 2x1 grid with `dx = 1`, zero `v` and `p`, and `u = 1` at the single
interior u-face `(1, 0)` — flat offset `1`.  Its only u-face row, `j = 0`,
is both face row `0` and face row `ny - 1`. -/
def adGrid : FluidGrid :=
  ⟨2, 1, 1, fun _ => 0, fun k => if k = 1 then 1 else 0, fun _ => 0⟩

/-- A 2x1 grid with `dx = 1`, zero `v` and `p`, and `u = 1` at the
rightmost u-face column `(2, 0)` — flat offset `2 = u_idx(nx, 0)`. -/
def sampGrid : FluidGrid :=
  ⟨2, 1, 1, fun _ => 0, fun k => if k = 2 then 1 else 0, fun _ => 0⟩

theorem writeCells_nil (F : ℕ → ℕ → ℕ) (val : ℕ → ℕ → ℚ) (f : ℕ → ℚ) :
    writeCells F val [] f = f := rfl

theorem writeCells_cons (F : ℕ → ℕ → ℕ) (val : ℕ → ℕ → ℚ) (a : ℕ × ℕ)
    (idxs : List (ℕ × ℕ)) (f : ℕ → ℚ) :
    writeCells F val (a :: idxs) f
      = writeCells F val idxs (Function.update f (F a.1 a.2) (val a.1 a.2)) := rfl

/-- A flat offset hit by no loop index keeps its initial value. -/
theorem writeCells_not_mem (F : ℕ → ℕ → ℕ) (val : ℕ → ℕ → ℚ)
    (idxs : List (ℕ × ℕ)) (f : ℕ → ℚ) (k : ℕ)
    (h : ∀ ij ∈ idxs, F ij.1 ij.2 ≠ k) :
    writeCells F val idxs f k = f k := by
  induction idxs generalizing f with
  | nil => rfl
  | cons a rest ih =>
      rw [writeCells_cons, ih _ (fun ij hij => h ij (List.mem_cons_of_mem a hij)),
        Function.update_apply]
      exact if_neg (fun hk => (h a (List.mem_cons_self a rest)) hk.symm)

/-- When every write hitting offset `k` comes from the single loop index
`(i, j)` (up to duplicates of `(i, j)` itself), the final value at `k` is
`val i j`. -/
theorem writeCells_hit (F : ℕ → ℕ → ℕ) (val : ℕ → ℕ → ℚ)
    (idxs : List (ℕ × ℕ)) (f : ℕ → ℚ) (i j : ℕ)
    (hmem : (i, j) ∈ idxs)
    (huniq : ∀ ij ∈ idxs, F ij.1 ij.2 = F i j → ij = (i, j)) :
    writeCells F val idxs f (F i j) = val i j := by
  induction idxs generalizing f with
  | nil => cases hmem
  | cons a rest ih =>
      rw [writeCells_cons]
      by_cases hr : (i, j) ∈ rest
      · exact ih _ hr (fun ij hij => huniq ij (List.mem_cons_of_mem a hij))
      · have ha : a = (i, j) := by
          rcases List.mem_cons.mp hmem with h1 | h2
          · exact h1.symm
          · exact absurd h2 hr
        subst ha
        rw [writeCells_not_mem]
        · simp [Function.update_apply]
        · intro ij hij hF
          exact hr (huniq ij (List.mem_cons_of_mem _ hij) hF ▸ hij)

/-- A loop whose writes always restate the current value leaves the buffer
unchanged. -/
theorem writeCells_self (F : ℕ → ℕ → ℕ) (val : ℕ → ℕ → ℚ)
    (idxs : List (ℕ × ℕ)) (f : ℕ → ℚ)
    (h : ∀ ij ∈ idxs, val ij.1 ij.2 = f (F ij.1 ij.2)) :
    writeCells F val idxs f = f := by
  induction idxs with
  | nil => rfl
  | cons a rest ih =>
      rw [writeCells_cons, h a (List.mem_cons_self a rest), Function.update_eq_self]
      exact ih (fun ij hij => h ij (List.mem_cons_of_mem a hij))

/-- A constant-valued loop leaves that constant at every offset it hits. -/
theorem writeCells_const_hit (F : ℕ → ℕ → ℕ) (c : ℚ)
    (idxs : List (ℕ × ℕ)) (f : ℕ → ℚ) (k : ℕ)
    (h : ∃ ij ∈ idxs, F ij.1 ij.2 = k) :
    writeCells F (fun _ _ => c) idxs f k = c := by
  induction idxs generalizing f with
  | nil => simp at h
  | cons a rest ih =>
      rw [writeCells_cons]
      by_cases hr : ∃ ij ∈ rest, F ij.1 ij.2 = k
      · exact ih _ hr
      · rcases h with ⟨ij, hij, hF⟩
        have ha : ij = a := by
          rcases List.mem_cons.mp hij with h1 | h2
          · exact h1
          · exact absurd ⟨ij, h2, hF⟩ hr
        subst ha
        rw [writeCells_not_mem _ _ _ _ _ (fun ab hab hF2 => hr ⟨ab, hab, hF2⟩)]
        simp [hF, Function.update_apply]

/-- Row-major flat offsets with width `w` are injective below the width. -/
theorem rowMajorInj (w i j a b : ℕ) (hi : i < w) (ha : a < w)
    (h : j * w + i = b * w + a) : i = a ∧ j = b := by
  have hmod : (j * w + i) % w = (b * w + a) % w := by rw [h]
  rw [Nat.mul_add_mod' j w i, Nat.mul_add_mod' b w a,
    Nat.mod_eq_of_lt hi, Nat.mod_eq_of_lt ha] at hmod
  subst hmod
  refine ⟨rfl, ?_⟩
  have := Nat.eq_of_mul_eq_mul_right (Nat.lt_of_le_of_lt (Nat.zero_le i) hi)
    (Nat.add_right_cancel h)
  exact this

/-- Membership in the rectangular loop index list. -/
theorem mem_idxRect (i j i0 ni j0 nj : ℕ) :
    (i, j) ∈ idxRect i0 ni j0 nj ↔ i0 ≤ i ∧ i < i0 + ni ∧ j0 ≤ j ∧ j < j0 + nj := by
  simp only [idxRect, List.mem_flatMap, List.mem_map, List.mem_range'_1, Prod.mk.injEq]
  constructor
  · rintro ⟨b, hb, a, ha, hai, haj⟩
    subst hai; subst haj
    exact ⟨ha.1, ha.2, hb.1, hb.2⟩
  · rintro ⟨h1, h2, h3, h4⟩
    exact ⟨j, ⟨h3, h4⟩, i, ⟨h1, h2⟩, rfl, rfl⟩

/-- Master characterisation of a rectangular row-major write loop: inside
the rectangle the final value is the loop's value, outside it the buffer is
untouched.  `hF` pins the offset map to row-major of width `w` and `hw`
keeps every visited column below the width. -/
theorem writeCells_rect (F : ℕ → ℕ → ℕ) (w : ℕ) (hF : ∀ a b, F a b = b * w + a)
    (val : ℕ → ℕ → ℚ) (i0 ni j0 nj : ℕ) (hw : i0 + ni ≤ w) (f : ℕ → ℚ)
    (i j : ℕ) (hi : i < w) :
    writeCells F val (idxRect i0 ni j0 nj) f (F i j)
      = if i0 ≤ i ∧ i < i0 + ni ∧ j0 ≤ j ∧ j < j0 + nj then val i j
        else f (F i j) := by
  have inj : ∀ ij ∈ idxRect i0 ni j0 nj, F ij.1 ij.2 = F i j → ij = (i, j) := by
    rintro ⟨a, b⟩ hab hFab
    have hb := (mem_idxRect a b i0 ni j0 nj).mp hab
    have ha : a < w := Nat.lt_of_lt_of_le hb.2.1 hw
    rw [hF, hF] at hFab
    have := rowMajorInj w a b i j ha hi hFab
    simp [this.1, this.2]
  by_cases hin : i0 ≤ i ∧ i < i0 + ni ∧ j0 ≤ j ∧ j < j0 + nj
  · rw [if_pos hin]
    exact writeCells_hit F val _ f i j
      ((mem_idxRect i j i0 ni j0 nj).mpr hin) inj
  · rw [if_neg hin]
    refine writeCells_not_mem F val _ f (F i j) ?_
    rintro ⟨a, b⟩ hab hFab
    have := inj ⟨a, b⟩ hab hFab
    rw [this] at hab
    exact hin ((mem_idxRect i j i0 ni j0 nj).mp hab)


theorem set_boundaries_noFlow (g : FluidGrid) : noFlowBoundary g.set_boundaries := by
  constructor
  · intro j hj
    refine ⟨writeCells_const_hit _ _ _ _ _ ⟨(0, j), ?_, rfl⟩,
      writeCells_const_hit _ _ _ _ _ ⟨(g.nx, j), ?_, rfl⟩⟩
    · simp only [List.mem_flatMap, List.mem_range]
      exact ⟨j, hj, by simp⟩
    · simp only [List.mem_flatMap, List.mem_range]
      exact ⟨j, hj, by simp⟩
  · intro i hi
    refine ⟨writeCells_const_hit _ _ _ _ _ ⟨(i, 0), ?_, rfl⟩,
      writeCells_const_hit _ _ _ _ _ ⟨(i, g.ny), ?_, rfl⟩⟩
    · simp only [List.mem_flatMap, List.mem_range]
      exact ⟨i, hi, by simp⟩
    · simp only [List.mem_flatMap, List.mem_range]
      exact ⟨i, hi, by simp⟩

theorem run_step_noFlow (g : FluidGrid) (dt : ℚ) : noFlowBoundary (g.run_step dt) :=
  set_boundaries_noFlow (((g.advect dt).solve_pressure dt).project dt)

/-- C1: after any sequence of one or more `run_step` calls with positive
time increments, the horizontal velocity is exactly `0` at face columns `0`
and `nx` for every row, and the vertical velocity is exactly `0` at face
rows `0` and `ny` for every column. -/
theorem run_step_boundary_invariant (g : FluidGrid) (dts : List ℚ)
    (hne : dts ≠ []) (hpos : ∀ d ∈ dts, 0 < d) :
    noFlowBoundary (dts.foldl FluidGrid.run_step g) := by
  induction dts generalizing g with
  | nil => exact absurd rfl hne
  | cons d rest ih =>
      rw [List.foldl_cons]
      cases rest with
      | nil => exact run_step_noFlow g d
      | cons e tail =>
          exact ih (g.run_step d) (List.cons_ne_nil e tail)
            (fun x hx => hpos x (List.mem_cons_of_mem d hx))

/-- C1 witness: one step with `dt = 1` on a freshly constructed 2x2 grid
satisfies the no-flow boundary condition. -/
theorem run_step_boundary_invariant_witness :
    noFlowBoundary ([1].foldl FluidGrid.run_step (FluidGrid.new 2 2 1)) :=
  run_step_boundary_invariant (FluidGrid.new 2 2 1) [1]
    (List.cons_ne_nil 1 [])
    (by intro d hd; rw [List.mem_singleton] at hd; rw [hd]; norm_num)

/-- C8 counterexample: constructing with `nx = 0` does not fail — the
source constructor contains no assertion and simply allocates, so the
embedding returns a degenerate grid with zero columns (its pressure field
has `0 * 2 = 0` cells) instead of failing fast. -/
theorem new_nx_zero_returns_degenerate_grid :
    (FluidGrid.new 0 2 1).nx = 0 ∧ (FluidGrid.new 0 2 1).p = (fun _ => 0) ∧
    (FluidGrid.new 0 2 1).u = (fun _ => 0) ∧ (FluidGrid.new 0 2 1).v = (fun _ => 0) :=
  ⟨rfl, rfl, rfl, rfl⟩

/-- C8 amended: the constructor performs no precondition validation at all;
for every input, including `nx = 0`, it totally returns the grid with the
requested dimensions and all-zero fields. -/
theorem new_unvalidated_total (nx ny : ℕ) (dx : ℚ) :
    (FluidGrid.new nx ny dx).nx = nx ∧ (FluidGrid.new nx ny dx).ny = ny ∧
    (FluidGrid.new nx ny dx).dx = dx ∧
    (∀ k, (FluidGrid.new nx ny dx).p k = 0 ∧ (FluidGrid.new nx ny dx).u k = 0 ∧
      (FluidGrid.new nx ny dx).v k = 0) :=
  ⟨rfl, rfl, rfl, fun _ => ⟨rfl, rfl, rfl⟩⟩

/-- C9: `solve_pressure` mutates only the pressure field — the velocity
fields and the dimensions are returned untouched. -/
theorem solve_pressure_frame (g : FluidGrid) (dt : ℚ) :
    (g.solve_pressure dt).u = g.u ∧ (g.solve_pressure dt).v = g.v ∧
    (g.solve_pressure dt).nx = g.nx ∧ (g.solve_pressure dt).ny = g.ny ∧
    (g.solve_pressure dt).dx = g.dx :=
  ⟨rfl, rfl, rfl, rfl, rfl⟩

/-- C10: the pressure field produced by `solve_pressure` does not depend on
the time increment — the `dt` parameter is never read by the source body. -/
theorem solve_pressure_dt_irrelevant (g : FluidGrid) (dt1 dt2 : ℚ) :
    (g.solve_pressure dt1).p = (g.solve_pressure dt2).p :=
  rfl


theorem idxRect_ni_zero (i0 j0 nj : ℕ) : idxRect i0 0 j0 nj = [] := by
  simp [idxRect]

theorem sweepOnce_spec (g : FluidGrid) (div : ℕ → ℚ) (p : ℕ → ℚ) :
    g.sweepOnce div (p, p)
      = (jacobiSweepSpec g.nx g.ny g.dx div p, jacobiSweepSpec g.nx g.ny g.dx div p) := by
  have key : g.sweepWrite div p p = jacobiSweepSpec g.nx g.ny g.dx div p := by
    rw [FluidGrid.sweepWrite]
    funext k
    rcases Nat.eq_zero_or_pos g.nx with h0 | hpos
    · rw [h0, idxRect_ni_zero, writeCells_nil, jacobiSweepSpec]
      simp only [h0, Nat.mod_zero]
      rw [if_neg]
      omega
    · have hi : k % g.nx < g.nx := Nat.mod_lt k hpos
      have hk : k = (k / g.nx) * (g.nx) + k % g.nx := by
        rw [Nat.mul_comm]
        exact (Nat.div_add_mod k g.nx).symm
      have hF : ∀ a b, g.p_idx a b = b * g.nx + a := fun _ _ => rfl
      have hw : 1 + (g.nx - 1 - 1) ≤ g.nx := by omega
      have hkF : k = g.p_idx (k % g.nx) (k / g.nx) := hk
      conv_lhs => rw [hkF]
      rw [writeCells_rect g.p_idx g.nx hF _ 1 (g.nx - 1 - 1) 1 (g.ny - 1 - 1) hw p
        (k % g.nx) (k / g.nx) hi, jacobiSweepSpec]
      by_cases hc : 1 ≤ k % g.nx ∧ k % g.nx ≤ g.nx - 2 ∧ 1 ≤ k / g.nx ∧ k / g.nx ≤ g.ny - 2
      · rw [if_pos (by omega), if_pos hc]
        rfl
      · rw [if_neg (by omega), if_neg hc, ← hkF]
  show (g.sweepWrite div p p, g.sweepWrite div p p) = _
  rw [key]

theorem sweepOnce_iterate (g : FluidGrid) (div : ℕ → ℚ) (n : ℕ) (p : ℕ → ℚ) :
    (g.sweepOnce div)^[n] (p, p)
      = ((jacobiSweepSpec g.nx g.ny g.dx div)^[n] p,
        (jacobiSweepSpec g.nx g.ny g.dx div)^[n] p) := by
  induction n generalizing p with
  | zero => rfl
  | succ n ih =>
      rw [Function.iterate_succ_apply, Function.iterate_succ_apply,
        sweepOnce_spec, ih]

theorem jacobiSweepSpec_border (nx ny : ℕ) (dx : ℚ) (div : ℕ → ℚ) (n : ℕ)
    (p : ℕ → ℚ) (k : ℕ)
    (h : ¬(1 ≤ k % nx ∧ k % nx ≤ nx - 2 ∧ 1 ≤ k / nx ∧ k / nx ≤ ny - 2)) :
    (jacobiSweepSpec nx ny dx div)^[n] p k = p k := by
  induction n with
  | zero => rfl
  | succ n ih =>
      rw [Function.iterate_succ_apply']
      show (if _ then _ else _) = p k
      rw [if_neg h]
      exact ih

/-- C2: the pressure relaxation performs exactly 50 sweeps, each a
synchronous Jacobi sweep reading only the previous full sweep's field over
the interior cells `[1, nx-2] x [1, ny-2]` (as `jacobiSweepSpec` states
from the spec), and every border pressure cell keeps the value it held
before the solve. -/
theorem solve_pressure_is_50_jacobi_sweeps (g : FluidGrid) (dt : ℚ) :
    (g.solve_pressure dt).p = (jacobiSweepSpec g.nx g.ny g.dx g.divergence)^[50] g.p ∧
    (∀ i j, i < g.nx → j < g.ny →
      ¬(1 ≤ i ∧ i ≤ g.nx - 2 ∧ 1 ≤ j ∧ j ≤ g.ny - 2) →
      (g.solve_pressure dt).p (g.p_idx i j) = g.p (g.p_idx i j)) := by
  have hmain : (g.solve_pressure dt).p
      = (jacobiSweepSpec g.nx g.ny g.dx g.divergence)^[50] g.p := by
    show ((g.sweepOnce g.divergence)^[50] (g.p, g.p)).1 = _
    rw [sweepOnce_iterate]
  refine ⟨hmain, ?_⟩
  intro i j hi hj hni
  rw [hmain]
  have hmod : (g.p_idx i j) % g.nx = i := by
    rw [FluidGrid.p_idx, Nat.mul_add_mod', Nat.mod_eq_of_lt hi]
  have hdiv : (g.p_idx i j) / g.nx = j := by
    rw [FluidGrid.p_idx, Nat.mul_comm,
      Nat.mul_add_div (Nat.lt_of_le_of_lt (Nat.zero_le i) hi),
      Nat.div_eq_of_lt hi, Nat.add_zero]
  exact jacobiSweepSpec_border g.nx g.ny g.dx g.divergence 50 g.p (g.p_idx i j)
    (by rw [hmod, hdiv]; exact hni)

/-- C5: the projection phase updates exactly the interior horizontal faces
(row in `[1, ny-2]`, column in `[1, nx-1]`) by
`u -= (dt/dx) * (p[col,row] - p[col-1,row])` and exactly the interior
vertical faces (row in `[1, ny-1]`, column in `[1, nx-2]`) by
`v -= (dt/dx) * (p[col,row] - p[col,row-1])`; every other `u` and `v`
entry, the pressure field and the dimensions are unchanged. -/
theorem project_updates_interior_faces (g : FluidGrid) (dt : ℚ) :
    (∀ i j, i ≤ g.nx → j < g.ny →
      (g.project dt).u (g.u_idx i j) =
        if 1 ≤ j ∧ j ≤ g.ny - 2 ∧ 1 ≤ i ∧ i ≤ g.nx - 1 then
          g.u (g.u_idx i j) - dt / g.dx * (g.p (g.p_idx i j) - g.p (g.p_idx (i - 1) j))
        else g.u (g.u_idx i j)) ∧
    (∀ i j, i < g.nx → j ≤ g.ny →
      (g.project dt).v (g.v_idx i j) =
        if 1 ≤ j ∧ j ≤ g.ny - 1 ∧ 1 ≤ i ∧ i ≤ g.nx - 2 then
          g.v (g.v_idx i j) - dt / g.dx * (g.p (g.p_idx i j) - g.p (g.p_idx i (j - 1)))
        else g.v (g.v_idx i j)) ∧
    (g.project dt).p = g.p ∧ (g.project dt).nx = g.nx ∧ (g.project dt).ny = g.ny ∧
    (g.project dt).dx = g.dx := by
  refine ⟨?_, ?_, rfl, rfl, rfl, rfl⟩
  · intro i j hi hj
    have hF : ∀ a b, g.u_idx a b = b * (g.nx + 1) + a := fun _ _ => rfl
    have hrect := writeCells_rect g.u_idx (g.nx + 1) hF
      (fun i j => g.u (g.u_idx i j)
        - dt / (1 * g.dx) * (g.p (g.p_idx i j) - g.p (g.p_idx (i - 1) j)))
      1 (g.nx - 1) 1 (g.ny - 1 - 1) (by omega) g.u i j (by omega)
    refine hrect.trans ?_
    by_cases hc : 1 ≤ j ∧ j ≤ g.ny - 2 ∧ 1 ≤ i ∧ i ≤ g.nx - 1
    · rw [if_pos (by omega), if_pos hc, one_mul]
    · rw [if_neg (by omega), if_neg hc]
  · intro i j hi hj
    have hF : ∀ a b, g.v_idx a b = b * g.nx + a := fun _ _ => rfl
    have hrect := writeCells_rect g.v_idx g.nx hF
      (fun i j => g.v (g.v_idx i j)
        - dt / (1 * g.dx) * (g.p (g.p_idx i j) - g.p (g.p_idx i (j - 1))))
      1 (g.nx - 1 - 1) 1 (g.ny - 1) (by omega) g.v i j (by omega)
    refine hrect.trans ?_
    by_cases hc : 1 ≤ j ∧ j ≤ g.ny - 1 ∧ 1 ≤ i ∧ i ≤ g.nx - 2
    · rw [if_pos (by omega), if_pos hc, one_mul]
    · rw [if_neg (by omega), if_neg hc]

/-- C5 witness: on a freshly constructed 2x3 grid with `dt = 1`, the
interior horizontal face `(1, 1)` takes the projected value. -/
theorem project_updates_interior_faces_witness :
    ((FluidGrid.new 2 3 1).project 1).u ((FluidGrid.new 2 3 1).u_idx 1 1)
      = if 1 ≤ 1 ∧ 1 ≤ 1 ∧ 1 ≤ 1 ∧ 1 ≤ 1 then (0 : ℚ) - 1 / 1 * (0 - 0) else 0 :=
  (project_updates_interior_faces (FluidGrid.new 2 3 1) 1).1 1 1 (by decide) (by decide)

/-- C6 amended: the advection phase leaves untouched exactly the u entries
at face columns `0` and `nx` and the v entries at face rows `0` and `ny`;
u entries on face rows `0` and `ny-1` with interior column, and v entries
on face columns `0` and `nx-1` with interior row, are recomputed.  Every
value written is `advUval`/`advVval` of the pre-step grid `g`, so all reads
of the sweep see the pre-step field and the buffers replace the fields only
after the sweep (no order-dependent contamination). -/
theorem advect_characterization (g : FluidGrid) (dt : ℚ) :
    (∀ i j, i ≤ g.nx → j < g.ny →
      (g.advect dt).u (g.u_idx i j) =
        if 1 ≤ i ∧ i ≤ g.nx - 1 then g.advUval dt i j else g.u (g.u_idx i j)) ∧
    (∀ i j, i < g.nx → j ≤ g.ny →
      (g.advect dt).v (g.v_idx i j) =
        if 1 ≤ j ∧ j ≤ g.ny - 1 then g.advVval dt i j else g.v (g.v_idx i j)) ∧
    (g.advect dt).p = g.p ∧ (g.advect dt).nx = g.nx ∧ (g.advect dt).ny = g.ny ∧
    (g.advect dt).dx = g.dx := by
  refine ⟨?_, ?_, rfl, rfl, rfl, rfl⟩
  · intro i j hi hj
    have hF : ∀ a b, g.u_idx a b = b * (g.nx + 1) + a := fun _ _ => rfl
    have hrect := writeCells_rect g.u_idx (g.nx + 1) hF (g.advUval dt)
      1 (g.nx - 1) 0 g.ny (by omega) g.u i j (by omega)
    refine hrect.trans ?_
    by_cases hc : 1 ≤ i ∧ i ≤ g.nx - 1
    · rw [if_pos (by omega), if_pos hc]
    · rw [if_neg (by omega), if_neg hc]
  · intro i j hi hj
    have hF : ∀ a b, g.v_idx a b = b * g.nx + a := fun _ _ => rfl
    have hrect := writeCells_rect g.v_idx g.nx hF (g.advVval dt)
      0 g.nx 1 (g.ny - 1) (by omega) g.v i j (by omega)
    refine hrect.trans ?_
    by_cases hc : 1 ≤ j ∧ j ≤ g.ny - 1
    · rw [if_pos (by omega), if_pos hc]
    · rw [if_neg (by omega), if_neg hc]

/-- C6 amended-theorem witness: on a fresh 2x3 grid with `dt = 1`, the
u-face `(1, 1)` receives the advected value. -/
theorem advect_characterization_witness :
    ((FluidGrid.new 2 3 1).advect 1).u ((FluidGrid.new 2 3 1).u_idx 1 1)
      = if 1 ≤ 1 ∧ 1 ≤ 1 then (FluidGrid.new 2 3 1).advUval 1 1 1 else 0 :=
  (advect_characterization (FluidGrid.new 2 3 1) 1).1 1 1 (by decide) (by decide)


theorem adGrid_advUval : adGrid.advUval 1 1 0 = 0 := by
  have h1 : adGrid.get_velocity 1 (1/2) = (1, 0) := by
    rw [FluidGrid.get_velocity]
    norm_num [adGrid, FluidGrid.u_idx, FluidGrid.v_idx, min_def, max_def]
  have h2 : (adGrid.get_velocity 0 (1/2)).1 = 0 := by
    rw [FluidGrid.get_velocity]
    norm_num [adGrid, FluidGrid.u_idx, FluidGrid.v_idx, min_def, max_def]
  have hdx : adGrid.dx = (1 : ℚ) := rfl
  rw [FluidGrid.advUval]
  norm_num [hdx, h1, h2]

/-- C6 counterexample: on `adGrid` (whose only u-face row `j = 0` is both
the bottom and the top row of the u array), advection with `dt = 1`
rewrites the u entry at face row `0` (and `ny - 1`), column `1`, from `1`
to `0` — so the outermost u-face rows are NOT left unchanged; only the
outermost u-face columns are skipped. -/
theorem advect_changes_u_boundary_row :
    adGrid.u (adGrid.u_idx 1 0) = 1 ∧ (adGrid.advect 1).u (adGrid.u_idx 1 0) = 0 := by
  constructor
  · rfl
  · show writeCells adGrid.u_idx (adGrid.advUval 1)
      (idxRect 1 (adGrid.nx - 1) 0 adGrid.ny) adGrid.u (adGrid.u_idx 1 0) = 0
    have hlist : idxRect 1 (adGrid.nx - 1) 0 adGrid.ny = [(1, 0)] := rfl
    rw [hlist]
    simp [writeCells, Function.update_apply, adGrid_advUval]

theorem get_velocity_zero (g : FluidGrid) (hu : g.u = fun _ => 0)
    (hv : g.v = fun _ => 0) (x y : ℚ) : g.get_velocity x y = (0, 0) := by
  rw [FluidGrid.get_velocity]
  simp [hu, hv]

theorem advect_of_zero (g : FluidGrid) (dt : ℚ) (hu : g.u = fun _ => 0)
    (hv : g.v = fun _ => 0) : g.advect dt = g := by
  have h0 := get_velocity_zero g hu hv
  show (⟨g.nx, g.ny, g.dx, g.p,
    writeCells g.u_idx (g.advUval dt) (idxRect 1 (g.nx - 1) 0 g.ny) g.u,
    writeCells g.v_idx (g.advVval dt) (idxRect 0 g.nx 1 (g.ny - 1)) g.v⟩ : FluidGrid) = g
  rw [writeCells_self _ _ _ _ (fun ij _ => by simp [FluidGrid.advUval, h0, hu]),
    writeCells_self _ _ _ _ (fun ij _ => by simp [FluidGrid.advVval, h0, hv])]

theorem divergence_of_zero (g : FluidGrid) (hu : g.u = fun _ => 0)
    (hv : g.v = fun _ => 0) : g.divergence = fun _ => 0 := by
  rw [FluidGrid.divergence]
  exact writeCells_self _ _ _ _ (fun ij _ => by simp [hu, hv])

theorem solve_pressure_of_zero (g : FluidGrid) (dt : ℚ) (hp : g.p = fun _ => 0)
    (hu : g.u = fun _ => 0) (hv : g.v = fun _ => 0) : g.solve_pressure dt = g := by
  have hdiv := divergence_of_zero g hu hv
  have hfix : g.sweepOnce g.divergence (g.p, g.p) = (g.p, g.p) := by
    have hw : g.sweepWrite g.divergence g.p g.p = g.p := by
      rw [FluidGrid.sweepWrite]
      exact writeCells_self _ _ _ _ (fun ij _ => by simp [hp, hdiv])
    show (g.sweepWrite g.divergence g.p g.p, g.sweepWrite g.divergence g.p g.p) = (g.p, g.p)
    rw [hw]
  show (⟨g.nx, g.ny, g.dx, ((g.sweepOnce g.divergence)^[50] (g.p, g.p)).1,
    g.u, g.v⟩ : FluidGrid) = g
  rw [Function.iterate_fixed hfix 50]

theorem project_of_zero (g : FluidGrid) (dt : ℚ) (hp : g.p = fun _ => 0) :
    g.project dt = g := by
  show (⟨g.nx, g.ny, g.dx, g.p,
    writeCells g.u_idx _ (idxRect 1 (g.nx - 1) 1 (g.ny - 1 - 1)) g.u,
    writeCells g.v_idx _ (idxRect 1 (g.nx - 1 - 1) 1 (g.ny - 1)) g.v⟩ : FluidGrid) = g
  rw [writeCells_self _ _ _ _ (fun ij _ => by simp [hp]),
    writeCells_self _ _ _ _ (fun ij _ => by simp [hp])]

theorem set_boundaries_of_zero (g : FluidGrid) (hu : g.u = fun _ => 0)
    (hv : g.v = fun _ => 0) : g.set_boundaries = g := by
  show (⟨g.nx, g.ny, g.dx, g.p,
    writeCells g.u_idx (fun _ _ => 0) _ g.u,
    writeCells g.v_idx (fun _ _ => 0) _ g.v⟩ : FluidGrid) = g
  rw [writeCells_self _ _ _ _ (fun ij _ => by simp [hu]),
    writeCells_self _ _ _ _ (fun ij _ => by simp [hv])]

theorem run_step_of_zero (g : FluidGrid) (dt : ℚ) (hp : g.p = fun _ => 0)
    (hu : g.u = fun _ => 0) (hv : g.v = fun _ => 0) : g.run_step dt = g := by
  rw [FluidGrid.run_step, advect_of_zero g dt hu hv,
    solve_pressure_of_zero g dt hp hu hv, project_of_zero g dt hp,
    set_boundaries_of_zero g hu hv]

/-- C7: starting from a freshly constructed (all-zero) grid with positive
dimensions and spacing, any sequence of `run_step` calls with positive time
increments leaves the grid exactly in the all-zero state — the quiescent
field is a fixed point of the step. -/
theorem run_step_zero_grid_fixed (nx ny : ℕ) (dx : ℚ) (hnx : 0 < nx)
    (hny : 0 < ny) (hdx : 0 < dx) (dts : List ℚ) (hpos : ∀ d ∈ dts, 0 < d) :
    dts.foldl FluidGrid.run_step (FluidGrid.new nx ny dx) = FluidGrid.new nx ny dx := by
  induction dts with
  | nil => rfl
  | cons d rest ih =>
      rw [List.foldl_cons, run_step_of_zero (FluidGrid.new nx ny dx) d rfl rfl rfl]
      exact ih (fun x hx => hpos x (List.mem_cons_of_mem d hx))

/-- C7 witness: one `dt = 1` step on a fresh 2x2 grid with `dx = 1` returns
exactly the fresh grid. -/
theorem run_step_zero_grid_fixed_witness :
    [1].foldl FluidGrid.run_step (FluidGrid.new 2 2 1) = FluidGrid.new 2 2 1 :=
  run_step_zero_grid_fixed 2 2 1 (by decide) (by decide) (by norm_num) [1]
    (by intro d hd; rw [List.mem_singleton] at hd; rw [hd]; norm_num)

theorem u_sample_exact (g : FluidGrid) (hdx : 0 < g.dx) (i j : ℕ)
    (hi : i < g.nx) (hj : j < g.ny) :
    (g.get_velocity ((i:ℚ) * g.dx) (((j:ℚ) + 1/2) * g.dx)).1 = g.u (g.u_idx i j) := by
  have hdx0 : g.dx ≠ 0 := ne_of_gt hdx
  have hX : min (max ((i:ℚ) * g.dx) 0) ((g.nx:ℚ) * g.dx) = (i:ℚ) * g.dx := by
    rw [max_eq_left (mul_nonneg (Nat.cast_nonneg i) hdx.le), min_eq_left
      (mul_le_mul_of_nonneg_right (by exact_mod_cast hi.le) hdx.le)]
  have hY : min (max (((j:ℚ) + 1/2) * g.dx) 0) ((g.ny:ℚ) * g.dx) = ((j:ℚ) + 1/2) * g.dx := by
    have hjny : ((j:ℚ) + 1/2) ≤ (g.ny:ℚ) := by
      have h1 : ((j:ℚ) + 1) ≤ (g.ny:ℚ) := by exact_mod_cast hj
      linarith
    have hy0 : (0:ℚ) ≤ ((j:ℚ) + 1/2) * g.dx := by
      have : (0:ℚ) ≤ (j:ℚ) + 1/2 := by positivity
      exact mul_nonneg this hdx.le
    rw [max_eq_left hy0, min_eq_left (mul_le_mul_of_nonneg_right hjny hdx.le)]
  simp only [FluidGrid.get_velocity]
  rw [hX, hY, mul_div_cancel_right₀ _ hdx0, mul_div_cancel_right₀ _ hdx0]
  rw [show ((j:ℚ) + 1/2 - 1/2) = (j:ℚ) from by ring]
  rw [Int.floor_natCast, Int.floor_natCast, Int.toNat_natCast, Int.toNat_natCast]
  simp [sub_self]
  rw [min_eq_left (by omega : i ≤ g.nx - 1), min_eq_left (by omega : j ≤ g.ny - 1)]

theorem u_sample_right_edge (g : FluidGrid) (hdx : 0 < g.dx) (j : ℕ) (hj : j < g.ny) :
    (g.get_velocity ((g.nx:ℚ) * g.dx) (((j:ℚ) + 1/2) * g.dx)).1
      = g.u (g.u_idx (g.nx - 1) j) := by
  have hdx0 : g.dx ≠ 0 := ne_of_gt hdx
  have hX : min (max ((g.nx:ℚ) * g.dx) 0) ((g.nx:ℚ) * g.dx) = (g.nx:ℚ) * g.dx := by
    rw [max_eq_left (mul_nonneg (Nat.cast_nonneg g.nx) hdx.le), min_self]
  have hY : min (max (((j:ℚ) + 1/2) * g.dx) 0) ((g.ny:ℚ) * g.dx) = ((j:ℚ) + 1/2) * g.dx := by
    have hjny : ((j:ℚ) + 1/2) ≤ (g.ny:ℚ) := by
      have h1 : ((j:ℚ) + 1) ≤ (g.ny:ℚ) := by exact_mod_cast hj
      linarith
    have hy0 : (0:ℚ) ≤ ((j:ℚ) + 1/2) * g.dx := by
      have : (0:ℚ) ≤ (j:ℚ) + 1/2 := by positivity
      exact mul_nonneg this hdx.le
    rw [max_eq_left hy0, min_eq_left (mul_le_mul_of_nonneg_right hjny hdx.le)]
  simp only [FluidGrid.get_velocity]
  rw [hX, hY, mul_div_cancel_right₀ _ hdx0, mul_div_cancel_right₀ _ hdx0]
  rw [show ((j:ℚ) + 1/2 - 1/2) = (j:ℚ) from by ring]
  rw [Int.floor_natCast, Int.floor_natCast, Int.toNat_natCast, Int.toNat_natCast]
  simp [sub_self]
  rw [min_eq_left (by omega : j ≤ g.ny - 1)]

theorem v_sample_exact (g : FluidGrid) (hdx : 0 < g.dx) (i j : ℕ)
    (hi : i < g.nx) (hj : j < g.ny) :
    (g.get_velocity (((i:ℚ) + 1/2) * g.dx) ((j:ℚ) * g.dx)).2 = g.v (g.v_idx i j) := by
  have hdx0 : g.dx ≠ 0 := ne_of_gt hdx
  have hX : min (max (((i:ℚ) + 1/2) * g.dx) 0) ((g.nx:ℚ) * g.dx) = ((i:ℚ) + 1/2) * g.dx := by
    have hinx : ((i:ℚ) + 1/2) ≤ (g.nx:ℚ) := by
      have h1 : ((i:ℚ) + 1) ≤ (g.nx:ℚ) := by exact_mod_cast hi
      linarith
    have hx0 : (0:ℚ) ≤ ((i:ℚ) + 1/2) * g.dx := by
      have : (0:ℚ) ≤ (i:ℚ) + 1/2 := by positivity
      exact mul_nonneg this hdx.le
    rw [max_eq_left hx0, min_eq_left (mul_le_mul_of_nonneg_right hinx hdx.le)]
  have hY : min (max ((j:ℚ) * g.dx) 0) ((g.ny:ℚ) * g.dx) = (j:ℚ) * g.dx := by
    rw [max_eq_left (mul_nonneg (Nat.cast_nonneg j) hdx.le), min_eq_left
      (mul_le_mul_of_nonneg_right (by exact_mod_cast hj.le) hdx.le)]
  simp only [FluidGrid.get_velocity]
  rw [hX, hY, mul_div_cancel_right₀ _ hdx0, mul_div_cancel_right₀ _ hdx0]
  rw [show ((i:ℚ) + 1/2 - 1/2) = (i:ℚ) from by ring]
  rw [Int.floor_natCast, Int.floor_natCast, Int.toNat_natCast, Int.toNat_natCast]
  simp [sub_self]
  rw [min_eq_left (by omega : i ≤ g.nx - 1), min_eq_left (by omega : j ≤ g.ny - 1)]

theorem v_sample_top_edge (g : FluidGrid) (hdx : 0 < g.dx) (i : ℕ) (hi : i < g.nx) :
    (g.get_velocity (((i:ℚ) + 1/2) * g.dx) ((g.ny:ℚ) * g.dx)).2
      = g.v (g.v_idx i (g.ny - 1)) := by
  have hdx0 : g.dx ≠ 0 := ne_of_gt hdx
  have hX : min (max (((i:ℚ) + 1/2) * g.dx) 0) ((g.nx:ℚ) * g.dx) = ((i:ℚ) + 1/2) * g.dx := by
    have hinx : ((i:ℚ) + 1/2) ≤ (g.nx:ℚ) := by
      have h1 : ((i:ℚ) + 1) ≤ (g.nx:ℚ) := by exact_mod_cast hi
      linarith
    have hx0 : (0:ℚ) ≤ ((i:ℚ) + 1/2) * g.dx := by
      have : (0:ℚ) ≤ (i:ℚ) + 1/2 := by positivity
      exact mul_nonneg this hdx.le
    rw [max_eq_left hx0, min_eq_left (mul_le_mul_of_nonneg_right hinx hdx.le)]
  have hY : min (max ((g.ny:ℚ) * g.dx) 0) ((g.ny:ℚ) * g.dx) = (g.ny:ℚ) * g.dx := by
    rw [max_eq_left (mul_nonneg (Nat.cast_nonneg g.ny) hdx.le), min_self]
  simp only [FluidGrid.get_velocity]
  rw [hX, hY, mul_div_cancel_right₀ _ hdx0, mul_div_cancel_right₀ _ hdx0]
  rw [show ((i:ℚ) + 1/2 - 1/2) = (i:ℚ) from by ring]
  rw [Int.floor_natCast, Int.floor_natCast, Int.toNat_natCast, Int.toNat_natCast]
  simp [sub_self]
  rw [min_eq_left (by omega : i ≤ g.nx - 1)]


/-- C3 counterexample: sampling exactly at the rightmost horizontal-face
location (`i = nx = 2`, `j = 0`, position `x = nx*dx = 2`,
`y = (0+1/2)*dx = 1/2`) returns `0`, not the stored value `1` at
`u_idx(2, 0)` — the source clamps the u-column lookups to `nx-1`, so the
last face column is never read. -/
theorem get_velocity_misses_last_u_column :
    (sampGrid.get_velocity 2 (1/2)).1 = 0 ∧ sampGrid.u (sampGrid.u_idx 2 0) = 1 := by
  constructor
  · rw [FluidGrid.get_velocity]
    norm_num [sampGrid, FluidGrid.u_idx, FluidGrid.v_idx, min_def, max_def]
  · rfl

/-- C3 amended: sampling exactly at a horizontal-face location returns that
face's stored u value for face columns `i < nx` (every face row); at the
rightmost face column `i = nx` the sampler instead returns the value stored
at column `nx - 1`.  Symmetrically, the v component is exact at
vertical-face locations with face row `j < ny`, and at the top face row
`j = ny` it returns the value stored at row `ny - 1`. -/
theorem get_velocity_exact_at_faces (g : FluidGrid) (hdx : 0 < g.dx) (i j : ℕ)
    (hi : i < g.nx) (hj : j < g.ny) :
    ((g.get_velocity ((i:ℚ) * g.dx) (((j:ℚ) + 1/2) * g.dx)).1 = g.u (g.u_idx i j)) ∧
    ((g.get_velocity ((g.nx:ℚ) * g.dx) (((j:ℚ) + 1/2) * g.dx)).1
      = g.u (g.u_idx (g.nx - 1) j)) ∧
    ((g.get_velocity (((i:ℚ) + 1/2) * g.dx) ((j:ℚ) * g.dx)).2 = g.v (g.v_idx i j)) ∧
    ((g.get_velocity (((i:ℚ) + 1/2) * g.dx) ((g.ny:ℚ) * g.dx)).2
      = g.v (g.v_idx i (g.ny - 1))) :=
  ⟨u_sample_exact g hdx i j hi hj, u_sample_right_edge g hdx j hj,
    v_sample_exact g hdx i j hi hj, v_sample_top_edge g hdx i hi⟩

/-- C3 amended-theorem witness at `sampGrid`, `i = 1`, `j = 0`. -/
theorem get_velocity_exact_at_faces_witness :
    ((sampGrid.get_velocity (((1:ℕ):ℚ) * sampGrid.dx)
        ((((0:ℕ):ℚ) + 1/2) * sampGrid.dx)).1 = sampGrid.u (sampGrid.u_idx 1 0)) ∧
    ((sampGrid.get_velocity ((sampGrid.nx:ℚ) * sampGrid.dx)
        ((((0:ℕ):ℚ) + 1/2) * sampGrid.dx)).1
      = sampGrid.u (sampGrid.u_idx (sampGrid.nx - 1) 0)) ∧
    ((sampGrid.get_velocity ((((1:ℕ):ℚ) + 1/2) * sampGrid.dx)
        (((0:ℕ):ℚ) * sampGrid.dx)).2 = sampGrid.v (sampGrid.v_idx 1 0)) ∧
    ((sampGrid.get_velocity ((((1:ℕ):ℚ) + 1/2) * sampGrid.dx)
        ((sampGrid.ny:ℚ) * sampGrid.dx)).2
      = sampGrid.v (sampGrid.v_idx 1 (sampGrid.ny - 1))) :=
  get_velocity_exact_at_faces sampGrid (by norm_num [sampGrid]) 1 0
    (by decide) (by decide)

/-- C4 counterexample: sampling far beyond the right edge (`x = 5`, which
clamps to the domain edge `x = 2`) returns `0` and not the stored value
`1` of the rightmost u-face column — so the u lookups are NOT clamped to
`[0, nx]` and the edge is NOT replicated from face column `nx`. -/
theorem get_velocity_edge_not_from_last_column :
    (sampGrid.get_velocity 5 (1/2)).1 = 0 ∧ sampGrid.u (sampGrid.u_idx 2 0) = 1 := by
  constructor
  · rw [FluidGrid.get_velocity]
    norm_num [sampGrid, FluidGrid.u_idx, FluidGrid.v_idx, min_def, max_def]
  · rfl

/-- C4 amended: every u lookup of the sampler is clamped to
`[0, nx-1] x [0, ny-1]` and every v lookup to `[0, nx-1] x [0, ny-1]` —
u's face column `nx` and v's face row `ny` are never read.  Stated as a
dependency property: two grids with the same dimensions that agree on u
over columns `<= nx-1`, rows `<= ny-1` and on v over columns `<= nx-1`,
rows `<= ny-1` produce identical samples everywhere. -/
theorem get_velocity_reads_only_clamped_range (g h : FluidGrid)
    (hnx : h.nx = g.nx) (hny : h.ny = g.ny) (hdx : h.dx = g.dx)
    (hu : ∀ a b, a ≤ g.nx - 1 → b ≤ g.ny - 1 → h.u (h.u_idx a b) = g.u (g.u_idx a b))
    (hv : ∀ a b, a ≤ g.nx - 1 → b ≤ g.ny - 1 → h.v (h.v_idx a b) = g.v (g.v_idx a b))
    (x y : ℚ) :
    h.get_velocity x y = g.get_velocity x y := by
  have hu4 : ∀ a b, h.u (h.u_idx (min a (g.nx - 1)) (min b (g.ny - 1)))
      = g.u (g.u_idx (min a (g.nx - 1)) (min b (g.ny - 1))) :=
    fun a b => hu _ _ (min_le_right _ _) (min_le_right _ _)
  have hv4 : ∀ a b, h.v (h.v_idx (min a (g.nx - 1)) (min b (g.ny - 1)))
      = g.v (g.v_idx (min a (g.nx - 1)) (min b (g.ny - 1))) :=
    fun a b => hv _ _ (min_le_right _ _) (min_le_right _ _)
  simp only [FluidGrid.get_velocity, hnx, hny, hdx, hu4, hv4]

/-- C4 amended-theorem witness: `sampGrid` differs from the all-zero 2x1
grid only at u's face column `nx = 2`, and samples identically at the
out-of-range point `(5, 1/2)`. -/
theorem get_velocity_reads_only_clamped_range_witness :
    sampGrid.get_velocity 5 (1/2) = (FluidGrid.new 2 1 1).get_velocity 5 (1/2) :=
  get_velocity_reads_only_clamped_range (FluidGrid.new 2 1 1) sampGrid rfl rfl rfl
    (by intro a b ha hb
        have ha2 : a ≤ 1 := ha
        have hb2 : b ≤ 0 := hb
        interval_cases a <;> interval_cases b <;> rfl)
    (by intro a b ha hb
        have ha2 : a ≤ 1 := ha
        have hb2 : b ≤ 0 := hb
        interval_cases a <;> interval_cases b <;> rfl)
    5 (1/2)

/-- C2 witness: the relaxation equality instantiated at a fresh 2x1 grid
with `dt = 1`. -/
theorem solve_pressure_is_50_jacobi_sweeps_witness :
    ((FluidGrid.new 2 1 1).solve_pressure 1).p
      = (jacobiSweepSpec 2 1 1 (FluidGrid.new 2 1 1).divergence)^[50]
          (FluidGrid.new 2 1 1).p :=
  (solve_pressure_is_50_jacobi_sweeps (FluidGrid.new 2 1 1) 1).1
